import Mathlib

/-!
# go-proxyprotocol: the listener and connection decorators

A shallow embedding of `listener.go`.

Go objects that live outside the package (the raw `net.Conn`, the raw
`net.Listener`, the logger, the source checker, the header parsers) are
modelled as records of methods that transform an arbitrary world state `σ`:
a call returns its Go results together with the world after the call.
A `*Conn` is a record of its fields; every method returns the record after
the call next to its results.  A call of a nil func value is a Go run-time
panic and is an explicit outcome.
-/

set_option linter.dupNamespace false

namespace ProxyProtocol

/-- One octet of the stream. -/
abbrev Byte := Nat

/-- Go `error` values. `ErrInvalidSignature` is the package sentinel that
`parserHeader` compares against; every other error is identified by its
message. A nil error is `none : Option Error`. -/
inductive Error where
  | ErrInvalidSignature
  | other (msg : String)
  deriving DecidableEq, Repr

/-- A non-nil `net.Addr` (nil is `none : Option Addr`). -/
structure Addr where
  ip : List Nat
  port : Nat
  deriving DecidableEq, Repr

/-- The two `Header` fields that `listener.go` and its tests read. -/
structure Header where
  SrcAddr : Option Addr
  DstAddr : Option Addr
  deriving DecidableEq, Repr

/-- Go run-time panics that the modelled code can raise. -/
inductive Panic where
  | nilFuncCall
  deriving DecidableEq, Repr

/-- The type `LoggerFn func(string, ...interface{})`; `none` is the nil func.
The variadic arguments passed in this file are always errors. -/
abbrev LoggerFn (σ : Type) := Option (String → List Error → σ → σ)

/-- The interface `net.Conn`: a raw connection as the record of its methods.
`Read n` is `Read(p)` with `len(p) = n` and returns the bytes stored in `p`
(their number is the returned count). -/
structure NetConn (σ : Type) where
  Read : Nat → σ → (List Byte × Option Error) × σ
  Write : List Byte → σ → (Nat × Option Error) × σ
  Close : σ → Option Error × σ
  LocalAddr : σ → Option Addr
  RemoteAddr : σ → Option Addr
  SetDeadline : Int → σ → Option Error × σ
  SetReadDeadline : Int → σ → Option Error × σ
  SetWriteDeadline : Int → σ → Option Error × σ

/-- The interface `net.Listener`. `Accept` returns either a connection or an
error, as the interface contract prescribes. -/
structure NetListener (σ : Type) where
  Accept : σ → Except Error (NetConn σ) × σ
  Close : σ → Option Error × σ
  Addr : σ → Option Addr

/-- The type `SourceChecker func(net.Addr) (bool, error)`; `none` is nil. -/
abbrev SourceChecker (σ : Type) :=
  Option (Option Addr → σ → (Bool × Option Error) × σ)

/-- The state of a `*bufio.Reader` placed in front of a raw connection:
`size` is `len(b.buf)`, `buf` the unread bytes `b.buf[b.r:b.w]`, `err` the
pending error `b.err`. The underlying reader is the raw connection itself
and is passed to the operations. -/
structure BufReader where
  size : Nat
  buf : List Byte
  err : Option Error
  deriving DecidableEq, Repr

/-- The constant `bufferSize`. -/
def bufferSize : Nat := 1400

/-- The standard library call `bufio.NewReaderSize(rd, size)` for a reader
`rd` that is not itself buffered. -/
def NewReaderSize (size : Nat) : BufReader :=
  { size := if size < 16 then 16 else size, buf := [], err := none }

/-- The standard library method `(*bufio.Reader).Read(p)` with `len(p) = n`,
reading from the raw connection `rd`. -/
def BufReader.Read {σ : Type} (b : BufReader) (rd : NetConn σ) (n : Nat) (w : σ) :
    (List Byte × Option Error) × BufReader × σ :=
  if n = 0 then
    if b.buf.isEmpty then (([], b.err), { b with err := none }, w)
    else (([], none), b, w)
  else if b.buf.isEmpty then
    if b.err.isSome then (([], b.err), { b with err := none }, w)
    else if b.size ≤ n then
      match rd.Read n w with
      | ((data, e), w1) => ((data, e), { b with err := none }, w1)
    else
      match rd.Read b.size w with
      | ((data, e), w1) =>
        if data.isEmpty then (([], e), { b with buf := [], err := none }, w1)
        else ((data.take n, none), { b with buf := data.drop n, err := e }, w1)
  else
    ((b.buf.take n, none), { b with buf := b.buf.drop n }, w)

/-- What a header parser hands back: the Go results `(*Header, error)`, the
buffered reader after the call and the world after the call. -/
structure ParseResult (σ : Type) where
  header : Option Header
  err : Option Error
  readBuf : BufReader
  world : σ

/-- The type `HeaderParser`, called as `headerParser(conn.readBuf, conn.logf)`. -/
abbrev HeaderParser (σ : Type) := BufReader → LoggerFn σ → σ → ParseResult σ

/-- Events recorded for the statement of properties: a run of the parser
chain, and the invocation of the parser at a given index of the list. -/
inductive Event where
  | resolve
  | parse (i : Nat)
  deriving DecidableEq, Repr

/-- The struct `Conn`. `once` is the done flag of the `sync.Once`.
`trace` is a ghost field: it records the events above and is never read by
the code. -/
structure Conn (σ : Type) where
  conn : NetConn σ
  logf : LoggerFn σ
  readBuf : BufReader
  header : Option Header
  headerParsers : List (HeaderParser σ)
  once : Bool
  trace : List Event

/-- The struct `Listener`. -/
structure Listener (σ : Type) where
  Listener : NetListener σ
  LoggerFn : LoggerFn σ
  HeaderParsers : List (HeaderParser σ)
  SourceCheck : SourceChecker σ

/-- The function `NewListener`. The package functions `ParseTextHeader` and
`ParseBinaryHeader` are defined outside `listener.go` and are parameters. -/
def NewListener {σ : Type} (ParseTextHeader ParseBinaryHeader : HeaderParser σ)
    (listener : NetListener σ) : Listener σ :=
  { Listener := listener
    LoggerFn := none
    HeaderParsers := [ParseTextHeader, ParseBinaryHeader]
    SourceCheck := none }

/-- The method `(*Listener).log`: the sink is called only when it is not nil. -/
def Listener.log {σ : Type} (listener : ProxyProtocol.Listener σ) (str : String)
    (args : List Error) (w : σ) : σ :=
  match listener.LoggerFn with
  | some f => f str args w
  | none => w

/-- The method `WithLogger`. -/
def Listener.WithLogger {σ : Type} (listener : ProxyProtocol.Listener σ)
    (loggerFn : ProxyProtocol.LoggerFn σ) : ProxyProtocol.Listener σ :=
  { listener with LoggerFn := loggerFn }

/-- The method `WithHeaderParsers`. -/
def Listener.WithHeaderParsers {σ : Type} (listener : ProxyProtocol.Listener σ)
    (headerParser : List (HeaderParser σ)) : ProxyProtocol.Listener σ :=
  { listener with HeaderParsers := headerParser }

/-- The method `WithSourceChecker`. -/
def Listener.WithSourceChecker {σ : Type} (listener : ProxyProtocol.Listener σ)
    (sourceChecker : SourceChecker σ) : ProxyProtocol.Listener σ :=
  { listener with SourceCheck := sourceChecker }

/-- The function `NewConn`. -/
def NewConn {σ : Type} (conn : NetConn σ) (logf : LoggerFn σ)
    (headerParsers : List (HeaderParser σ)) : Conn σ :=
  { conn := conn
    logf := logf
    readBuf := NewReaderSize bufferSize
    header := none
    headerParsers := headerParsers
    once := false
    trace := [] }

/-- A call `conn.logf(str, args...)`: calling the nil func panics. -/
def Conn.callLogf {σ : Type} (c : Conn σ) (str : String) (args : List Error) (w : σ) :
    Option Panic × σ :=
  match c.logf with
  | none => (some Panic.nilFuncCall, w)
  | some f => (none, f str args w)

/-- The `for ... range conn.headerParsers` loop of `parserHeader` over the
remaining parsers, the next of which has index `i`, followed by the
statement after the loop. -/
def Conn.parserLoop {σ : Type} :
    List (HeaderParser σ) → Nat → Conn σ → σ → Option Panic × Conn σ × σ
  | [], _, c, w =>
    match c.callLogf "Use raw remote addr" [] w with
    | (p, w1) => (p, c, w1)
  | headerParser :: rest, i, c, w =>
    let r := headerParser c.readBuf c.logf w
    let c1 : Conn σ := { c with readBuf := r.readBuf, trace := c.trace ++ [Event.parse i] }
    match r.err with
    | none =>
      match c1.callLogf "Use header remote addr" [] r.world with
      | (some p, w1) => (some p, c1, w1)
      | (none, w1) => (none, { c1 with header := r.header }, w1)
    | some Error.ErrInvalidSignature => Conn.parserLoop rest (i + 1) c1 r.world
    | some e =>
      match c1.callLogf "Parse header error: %s" [e] r.world with
      | (p, w1) => (p, c1, w1)

/-- The method `(*Conn).parserHeader`. -/
def Conn.parserHeader {σ : Type} (c : Conn σ) (w : σ) : Option Panic × Conn σ × σ :=
  Conn.parserLoop c.headerParsers 0 { c with trace := c.trace ++ [Event.resolve] } w

/-- The call `conn.once.Do(conn.parserHeader)`: the function runs only when
the flag is not set, and the flag is set when it returns or panics. -/
def Conn.onceDo {σ : Type} (c : Conn σ) (w : σ) : Option Panic × Conn σ × σ :=
  if c.once then (none, c, w)
  else
    match c.parserHeader w with
    | (p, c1, w1) => (p, { c1 with once := true }, w1)

/-- The method `(*Conn).Read(buf)` with `len(buf) = n`. -/
def Conn.Read {σ : Type} (c : Conn σ) (n : Nat) (w : σ) :
    Except Panic (List Byte × Option Error) × Conn σ × σ :=
  match c.onceDo w with
  | (some p, c1, w1) => (Except.error p, c1, w1)
  | (none, c1, w1) =>
    match c1.readBuf.Read c1.conn n w1 with
    | (r, b, w2) => (Except.ok r, { c1 with readBuf := b }, w2)

/-- The method `(*Conn).Write`. -/
def Conn.Write {σ : Type} (c : Conn σ) (buf : List Byte) (w : σ) :
    (Nat × Option Error) × Conn σ × σ :=
  ((c.conn.Write buf w).1, c, (c.conn.Write buf w).2)

/-- The method `(*Conn).Close`. -/
def Conn.Close {σ : Type} (c : Conn σ) (w : σ) : Option Error × Conn σ × σ :=
  ((c.conn.Close w).1, c, (c.conn.Close w).2)

/-- The method `(*Conn).LocalAddr`. -/
def Conn.LocalAddr {σ : Type} (c : Conn σ) (w : σ) : Option Addr × Conn σ × σ :=
  (c.conn.LocalAddr w, c, w)

/-- The method `(*Conn).RemoteAddr`. -/
def Conn.RemoteAddr {σ : Type} (c : Conn σ) (w : σ) :
    Except Panic (Option Addr) × Conn σ × σ :=
  match c.onceDo w with
  | (some p, c1, w1) => (Except.error p, c1, w1)
  | (none, c1, w1) =>
    match c1.header with
    | some h => (Except.ok h.SrcAddr, c1, w1)
    | none => (Except.ok (c1.conn.RemoteAddr w1), c1, w1)

/-- The method `(*Conn).SetDeadline`. -/
def Conn.SetDeadline {σ : Type} (c : Conn σ) (t : Int) (w : σ) :
    Option Error × Conn σ × σ :=
  ((c.conn.SetDeadline t w).1, c, (c.conn.SetDeadline t w).2)

/-- The method `(*Conn).SetReadDeadline`. -/
def Conn.SetReadDeadline {σ : Type} (c : Conn σ) (t : Int) (w : σ) :
    Option Error × Conn σ × σ :=
  ((c.conn.SetReadDeadline t w).1, c, (c.conn.SetReadDeadline t w).2)

/-- The method `(*Conn).SetWriteDeadline`. -/
def Conn.SetWriteDeadline {σ : Type} (c : Conn σ) (t : Int) (w : σ) :
    Option Error × Conn σ × σ :=
  ((c.conn.SetWriteDeadline t w).1, c, (c.conn.SetWriteDeadline t w).2)

/-- The dynamic type of the `net.Conn` that `Accept` returns: the raw
connection itself or a `*Conn` around it. -/
inductive AcceptedConn (σ : Type) where
  | raw (c : NetConn σ)
  | proxy (c : Conn σ)

/-- The method `(*Listener).Accept`; the results are `(net.Conn, error)`. -/
def Listener.Accept {σ : Type} (listener : ProxyProtocol.Listener σ) (w : σ) :
    (Option (AcceptedConn σ) × Option Error) × σ :=
  match listener.Listener.Accept w with
  | (Except.error err, w1) => ((none, some err), w1)
  | (Except.ok rawConn, w1) =>
    match listener.SourceCheck with
    | some sourceCheck =>
      match sourceCheck (rawConn.RemoteAddr w1) w1 with
      | ((_, some err), w2) =>
        ((none, some err), listener.log "Source check error: %s" [err] w2)
      | ((trusted, none), w2) =>
        if !trusted then ((some (AcceptedConn.raw rawConn), none), w2)
        else
          ((some (AcceptedConn.proxy
            (NewConn rawConn (some listener.log) listener.HeaderParsers)), none), w2)
    | none =>
      ((some (AcceptedConn.proxy
        (NewConn rawConn (some listener.log) listener.HeaderParsers)), none), w1)

/-- The method `(*Listener).Close`. -/
def Listener.Close {σ : Type} (listener : ProxyProtocol.Listener σ) (w : σ) : Option Error × σ :=
  listener.Listener.Close w

/-- The method `Listener.Addr`. -/
def Listener.Addr {σ : Type} (listener : ProxyProtocol.Listener σ) (w : σ) : Option Addr :=
  listener.Listener.Addr w

/-! ## Clients of the package: dispatch, call sequences and test doubles -/

/-- A call of `RemoteAddr()` on the `net.Conn` returned by `Accept`, by
dynamic dispatch. -/
def AcceptedConn.RemoteAddr {σ : Type} (a : AcceptedConn σ) (w : σ) :
    Except Panic (Option Addr) × AcceptedConn σ × σ :=
  match a with
  | AcceptedConn.raw c => (Except.ok (c.RemoteAddr w), AcceptedConn.raw c, w)
  | AcceptedConn.proxy c =>
    match c.RemoteAddr w with
    | (r, c1, w1) => (r, AcceptedConn.proxy c1, w1)

/-- A call of `Read(buf)` on the `net.Conn` returned by `Accept`, by dynamic
dispatch. -/
def AcceptedConn.Read {σ : Type} (a : AcceptedConn σ) (n : Nat) (w : σ) :
    Except Panic (List Byte × Option Error) × AcceptedConn σ × σ :=
  match a with
  | AcceptedConn.raw c => (Except.ok (c.Read n w).1, AcceptedConn.raw c, (c.Read n w).2)
  | AcceptedConn.proxy c =>
    match c.Read n w with
    | (r, c1, w1) => (r, AcceptedConn.proxy c1, w1)

/-- The two calls that trigger resolution. -/
inductive Call where
  | Read (n : Nat)
  | RemoteAddr
  deriving DecidableEq, Repr

/-- One call on a `*Conn`, keeping the connection and the world after it. -/
def Conn.call {σ : Type} (c : Conn σ) (w : σ) : Call → Conn σ × σ
  | Call.Read n => (c.Read n w).2
  | Call.RemoteAddr => (c.RemoteAddr w).2

/-- A sequence of calls on a `*Conn`, one after the other. -/
def Conn.calls {σ : Type} : List Call → Conn σ → σ → Conn σ × σ
  | [], c, w => (c, w)
  | k :: ks, c, w => Conn.calls ks (c.call w k).1 (c.call w k).2

/-- A scripted header parser, as the generated `MockHeaderParser` of the
tests: it returns the results assigned to it whatever the stream holds, and
may consume from the stream in an arbitrary way. -/
structure Script (σ : Type) where
  header : Option Header
  err : Option Error
  effect : BufReader → σ → BufReader × σ

/-- The header parser that plays a script. -/
def Script.toParser {σ : Type} (s : Script σ) : HeaderParser σ :=
  fun readBuf _ w =>
    { header := s.header
      err := s.err
      readBuf := (s.effect readBuf w).1
      world := (s.effect readBuf w).2 }

/-- The number of leading scripts whose assigned error is
`ErrInvalidSignature`: the index of the first parser that decides. -/
def decisiveIndex {σ : Type} (ss : List (Script σ)) : Nat :=
  (ss.takeWhile (fun s => decide (s.err = some Error.ErrInvalidSignature))).length

/-- A concrete world for examples: the bytes the peer has sent and that the
raw connection has not yet delivered, the bytes written to it, the number of
`Close` calls it received, and the lines the logger printed. -/
structure MockWorld where
  input : List Byte
  written : List Byte
  closeCalls : Nat
  log : List String
  deriving DecidableEq, Repr

/-- A raw connection over `MockWorld` with the given local and remote
addresses. -/
def mockConn (laddr raddr : Option Addr) : NetConn MockWorld :=
  { Read := fun n w =>
      if w.input.isEmpty then (([], some (Error.other "EOF")), w)
      else ((w.input.take n, none), { w with input := w.input.drop n })
    Write := fun p w => ((p.length, none), { w with written := w.written ++ p })
    Close := fun w => (none, { w with closeCalls := w.closeCalls + 1 })
    LocalAddr := fun _ => laddr
    RemoteAddr := fun _ => raddr
    SetDeadline := fun _ w => (none, w)
    SetReadDeadline := fun _ w => (none, w)
    SetWriteDeadline := fun _ w => (none, w) }

/-- The transport addresses used in the tests of the package. -/
def rawAddr : Addr := { ip := [10, 0, 0, 1], port := 12345 }

/-- The header address used in the tests of the package. -/
def headerAddr : Addr := { ip := [1, 2, 3, 4], port := 12345 }

/-- The raw connection of the examples. -/
def rawConn : NetConn MockWorld := mockConn (some rawAddr) (some rawAddr)

/-- A raw listener over `MockWorld` that hands out `rawConn`. -/
def mockListener : NetListener MockWorld :=
  { Accept := fun w => (Except.ok rawConn, w)
    Close := fun w => (none, w)
    Addr := fun _ => none }

/-- A logger that appends the format string to the log of the world. -/
def mockLogger : LoggerFn MockWorld :=
  some (fun str _ w => { w with log := w.log ++ [str] })

/-- A logger that does nothing. -/
def silentLogger {σ : Type} : LoggerFn σ := some (fun _ _ w => w)

/-- A world in which the peer has sent three bytes. -/
def world0 : MockWorld := { input := [1, 2, 3], written := [], closeCalls := 0, log := [] }

/-- A world in which the peer has sent the text header `PROXY UNKNOWN` with
its line end, followed by one byte of payload. -/
def proxyWorld : MockWorld :=
  { input := [80, 82, 79, 88, 89, 32, 85, 78, 75, 78, 79, 87, 78, 13, 10, 7]
    written := [], closeCalls := 0, log := [] }

/-- A scripted parser that fails with the fatal error of `TestConn_Read`. -/
def failingParser : HeaderParser MockWorld :=
  Script.toParser { header := none, err := some (Error.other "Parse error"),
                    effect := fun b w => (b, w) }

/-- A scripted parser that returns a header without addresses, as for a
LOCAL or UNKNOWN header. -/
def localParser : HeaderParser MockWorld :=
  Script.toParser { header := some { SrcAddr := none, DstAddr := none }, err := none,
                    effect := fun b w => (b, w) }

/-- A scripted parser that returns the header of `TestConn_LocalAddr`. -/
def dstParser : HeaderParser MockWorld :=
  Script.toParser { header := some { SrcAddr := none, DstAddr := some headerAddr },
                    err := none, effect := fun b w => (b, w) }

/-- A stand-in for `ParseTextHeader`: it reports no text signature. -/
def textStandIn : HeaderParser MockWorld :=
  Script.toParser { header := none, err := some Error.ErrInvalidSignature,
                    effect := fun b w => (b, w) }

/-- A stand-in for `ParseBinaryHeader`: it matches and returns a header. -/
def binaryStandIn : HeaderParser MockWorld :=
  Script.toParser { header := some { SrcAddr := some headerAddr, DstAddr := some rawAddr },
                    err := none, effect := fun b w => (b, w) }

/-- A source checker that fails with an error. -/
def failingCheck : SourceChecker MockWorld :=
  some (fun _ w => ((false, some (Error.other "Check error")), w))

/-- A source checker that trusts nobody. -/
def distrustCheck : SourceChecker MockWorld :=
  some (fun _ w => ((false, none), w))


/-! ## The parser chain -/

/-- With a logger that is not nil the loop over scripted parsers does not
panic, invokes the parsers by increasing index up to the first one whose
error is not `ErrInvalidSignature`, and stores a header only when that
parser succeeded. -/
theorem parserLoop_scripted {σ : Type} (f : String → List Error → σ → σ)
    (ss : List (Script σ)) (i : Nat) (c : Conn σ) (w : σ) (hlog : c.logf = some f) :
    (Conn.parserLoop (ss.map Script.toParser) i c w).1 = none ∧
    (Conn.parserLoop (ss.map Script.toParser) i c w).2.1.trace =
      c.trace ++ (List.range' i (min (decisiveIndex ss + 1) ss.length)).map Event.parse ∧
    (Conn.parserLoop (ss.map Script.toParser) i c w).2.1.header =
      (match ss.get? (decisiveIndex ss) with
       | some s => if s.err = none then s.header else c.header
       | none => c.header) := by
  induction ss generalizing i c w with
  | nil => simp [Conn.parserLoop, Conn.callLogf, hlog, decisiveIndex]
  | cons s rest ih =>
    cases herr : s.err with
    | none =>
      simp [Conn.parserLoop, Conn.callLogf, hlog, decisiveIndex, Script.toParser, herr,
        List.takeWhile, List.range']
    | some e =>
      cases e with
      | ErrInvalidSignature =>
        have h := ih (i + 1)
          { c with readBuf := (s.effect c.readBuf w).1, trace := c.trace ++ [Event.parse i] }
          (s.effect c.readBuf w).2 hlog
        have hk : decisiveIndex (s :: rest) = decisiveIndex rest + 1 := by
          simp [decisiveIndex, List.takeWhile, herr]
        have hmin : min (decisiveIndex rest + 1 + 1) (rest.length + 1) =
            min (decisiveIndex rest + 1) rest.length + 1 := by omega
        simp only [List.map_cons, Conn.parserLoop, Script.toParser, herr, hk, List.length_cons,
          hmin, List.range', List.get?_cons_succ]
        refine ⟨h.1, ?_, h.2.2⟩
        rw [h.2.1]
        simp
      | other m =>
        simp [Conn.parserLoop, Conn.callLogf, hlog, decisiveIndex, Script.toParser, herr,
          List.takeWhile, List.range']

/-- Whatever the logger, the loop over scripted parsers invokes them by
increasing index up to the first one whose error is not
`ErrInvalidSignature`. -/
theorem parserLoop_scripted_trace {σ : Type} (ss : List (Script σ)) (i : Nat) (c : Conn σ)
    (w : σ) :
    (Conn.parserLoop (ss.map Script.toParser) i c w).2.1.trace =
      c.trace ++ (List.range' i (min (decisiveIndex ss + 1) ss.length)).map Event.parse := by
  induction ss generalizing i c w with
  | nil => simp [Conn.parserLoop, decisiveIndex]
  | cons s rest ih =>
    cases herr : s.err with
    | none =>
      cases hl : c.logf <;>
        simp [Conn.parserLoop, Conn.callLogf, hl, decisiveIndex, Script.toParser, herr,
          List.takeWhile, List.range']
    | some e =>
      cases e with
      | ErrInvalidSignature =>
        have h := ih (i + 1)
          { c with readBuf := (s.effect c.readBuf w).1, trace := c.trace ++ [Event.parse i] }
          (s.effect c.readBuf w).2
        have hk : decisiveIndex (s :: rest) = decisiveIndex rest + 1 := by
          simp [decisiveIndex, List.takeWhile, herr]
        have hmin : min (decisiveIndex rest + 1 + 1) (rest.length + 1) =
            min (decisiveIndex rest + 1) rest.length + 1 := by omega
        simp only [List.map_cons, Conn.parserLoop, Script.toParser, herr, hk, List.length_cons,
          hmin, List.range']
        rw [h]
        simp
      | other m =>
        simp [Conn.parserLoop, decisiveIndex, Script.toParser, herr,
          List.takeWhile, List.range']

/-- The loop only appends parser invocations to the trace: the number of
recorded chain runs does not change. -/
theorem parserLoop_count_resolve {σ : Type} (ps : List (HeaderParser σ)) (i : Nat)
    (c : Conn σ) (w : σ) :
    (Conn.parserLoop ps i c w).2.1.trace.count Event.resolve = c.trace.count Event.resolve := by
  induction ps generalizing i c w with
  | nil => simp [Conn.parserLoop]
  | cons p rest ih =>
    simp only [Conn.parserLoop]
    split
    · split <;> simp [List.count_append]
    · rw [ih]
      simp [List.count_append]
    · simp [List.count_append]

/-- With a nil logger every path through the loop ends in a nil func call. -/
theorem parserLoop_nil_logger {σ : Type} (ps : List (HeaderParser σ)) (i : Nat)
    (c : Conn σ) (w : σ) (hlog : c.logf = none) :
    (Conn.parserLoop ps i c w).1 = some Panic.nilFuncCall := by
  induction ps generalizing i c w with
  | nil => simp [Conn.parserLoop, Conn.callLogf, hlog]
  | cons p rest ih =>
    simp only [Conn.parserLoop]
    split
    · simp [Conn.callLogf, hlog]
    · exact ih _ _ _ hlog
    · simp [Conn.callLogf, hlog]


/-- With a logger that is not nil the loop does not panic, whatever the
parsers do. -/
theorem parserLoop_no_panic {σ : Type} (f : String → List Error → σ → σ)
    (ps : List (HeaderParser σ)) (i : Nat) (c : Conn σ) (w : σ) (hlog : c.logf = some f) :
    (Conn.parserLoop ps i c w).1 = none := by
  induction ps generalizing i c w with
  | nil => simp [Conn.parserLoop, Conn.callLogf, hlog]
  | cons p rest ih =>
    simp only [Conn.parserLoop]
    split
    · simp [Conn.callLogf, hlog]
    · exact ih _ _ _ hlog
    · simp [Conn.callLogf, hlog]

/-- The loop never replaces the raw connection of the `Conn`. -/
theorem parserLoop_conn {σ : Type} (ps : List (HeaderParser σ)) (i : Nat)
    (c : Conn σ) (w : σ) : (Conn.parserLoop ps i c w).2.1.conn = c.conn := by
  induction ps generalizing i c w with
  | nil => simp [Conn.parserLoop]
  | cons p rest ih =>
    simp only [Conn.parserLoop]
    split
    · split <;> rfl
    · rw [ih]
    · rfl

/-! ## The one-shot resolution -/

/-- Once the flag is set, `once.Do` does nothing. -/
theorem onceDo_done {σ : Type} (c : Conn σ) (w : σ) (h : c.once = true) :
    c.onceDo w = (none, c, w) := by
  simp [Conn.onceDo, h]

/-- After `once.Do` the flag is set, also when the chain panicked. -/
theorem onceDo_sets_once {σ : Type} (c : Conn σ) (w : σ) : (c.onceDo w).2.1.once = true := by
  by_cases h : c.once = true
  · simp [Conn.onceDo, h]
  · simp [Conn.onceDo, h]

/-- On a fresh `Conn`, `once.Do` records exactly one more chain run. -/
theorem onceDo_count_fresh {σ : Type} (c : Conn σ) (w : σ) (h : c.once = false) :
    (c.onceDo w).2.1.trace.count Event.resolve = c.trace.count Event.resolve + 1 := by
  simp [Conn.onceDo, h, Conn.parserHeader, parserLoop_count_resolve, List.count_append]

/-- A `Read` or `RemoteAddr` leaves the flag, the header and the trace as
`once.Do` left them. -/
theorem call_eq_onceDo {σ : Type} (c : Conn σ) (w : σ) (k : Call) :
    (c.call w k).1.once = (c.onceDo w).2.1.once ∧
    (c.call w k).1.trace = (c.onceDo w).2.1.trace ∧
    (c.call w k).1.header = (c.onceDo w).2.1.header := by
  rcases h : c.onceDo w with ⟨p, c1, w1⟩
  cases k with
  | Read n => cases p <;> simp [Conn.call, Conn.Read, h]
  | RemoteAddr =>
    cases p with
    | some p => simp [Conn.call, Conn.RemoteAddr, h]
    | none => cases hh : c1.header <;> simp [Conn.call, Conn.RemoteAddr, h, hh]

/-- On a resolved `Conn`, a `Read` or `RemoteAddr` invokes nothing and keeps
the header. -/
theorem call_after_done {σ : Type} (c : Conn σ) (w : σ) (k : Call) (h : c.once = true) :
    (c.call w k).1.once = true ∧ (c.call w k).1.trace = c.trace ∧
    (c.call w k).1.header = c.header := by
  have hc := call_eq_onceDo c w k
  rw [onceDo_done c w h] at hc
  exact ⟨hc.1.trans h, hc.2.1, hc.2.2⟩

/-- On a resolved `Conn`, a sequence of `Read` and `RemoteAddr` calls
invokes nothing and keeps the header. -/
theorem calls_after_done {σ : Type} (ks : List Call) (c : Conn σ) (w : σ)
    (h : c.once = true) :
    (Conn.calls ks c w).1.trace = c.trace ∧ (Conn.calls ks c w).1.header = c.header := by
  induction ks generalizing c w with
  | nil => exact ⟨rfl, rfl⟩
  | cons k ks ih =>
    have hk := call_after_done c w k h
    have hr := ih (c.call w k).1 (c.call w k).2 hk.1
    exact ⟨hr.1.trans hk.2.1, hr.2.trans hk.2.2⟩


/-! ## Settled properties -/

/-- C6, refuted as stated: on a `Conn` with a nil logger whose only parser
succeeds with a header, `parserHeader` invokes that parser and then panics on
the log call that precedes the store, so the stored header is not the header
of that parser. -/
theorem parserHeader_nil_logger_counterexample :
    (binaryStandIn (NewConn rawConn none [binaryStandIn]).readBuf none world0).err = none ∧
    (binaryStandIn (NewConn rawConn none [binaryStandIn]).readBuf none world0).header =
      some { SrcAddr := some headerAddr, DstAddr := some rawAddr } ∧
    ((NewConn rawConn none [binaryStandIn]).parserHeader world0).2.1.trace =
      [Event.resolve, Event.parse 0] ∧
    ((NewConn rawConn none [binaryStandIn]).parserHeader world0).1 =
      some Panic.nilFuncCall ∧
    ((NewConn rawConn none [binaryStandIn]).parserHeader world0).2.1.header = none ∧
    ((NewConn rawConn none [binaryStandIn]).parserHeader world0).2.1.header ≠
      (binaryStandIn (NewConn rawConn none [binaryStandIn]).readBuf none world0).header := by
  refine ⟨rfl, rfl, rfl, rfl, rfl, ?_⟩
  intro h
  have h2 : (none : Option Header) =
      some { SrcAddr := some headerAddr, DstAddr := some rawAddr } := h
  cases h2

/-- C6, amended: for every `Conn` whose parser list plays a list of assigned
outcomes, `parserHeader` invokes the parsers by increasing index and stops at
the first one whose error is not `ErrInvalidSignature` (it invokes all of them
when there is none); and when the logger is not nil it completes without a
panic, stores the header of that parser when it succeeded, and leaves the
stored header as it was when that parser failed or when every parser (or
none) reported `ErrInvalidSignature`. -/
theorem parserHeader_chain {σ : Type} (c : Conn σ) (ss : List (Script σ)) (w : σ)
    (hps : c.headerParsers = ss.map Script.toParser) :
    (c.parserHeader w).2.1.trace =
      c.trace ++ Event.resolve ::
        (List.range (min (decisiveIndex ss + 1) ss.length)).map Event.parse ∧
    ∀ f : String → List Error → σ → σ, c.logf = some f →
      (c.parserHeader w).1 = none ∧
      (c.parserHeader w).2.1.header =
        (match ss.get? (decisiveIndex ss) with
         | some s => if s.err = none then s.header else c.header
         | none => c.header) := by
  have ht := parserLoop_scripted_trace ss 0 { c with trace := c.trace ++ [Event.resolve] } w
  rw [← hps] at ht
  simp only [Conn.parserHeader]
  refine ⟨?_, fun f hlog => ?_⟩
  · rw [ht, List.range_eq_range']
    simp
  · have h := parserLoop_scripted f ss 0 { c with trace := c.trace ++ [Event.resolve] } w hlog
    rw [← hps] at h
    exact ⟨h.1, h.2.2⟩

/-- C6, amended, at a concrete input: a parser without a signature match, then one that
succeeds, then one that would fail. The third parser is never invoked. -/
theorem parserHeader_chain_witness :
    ((NewConn rawConn mockLogger [textStandIn, binaryStandIn, failingParser]).parserHeader
        world0).2.1.trace = [Event.resolve, Event.parse 0, Event.parse 1] ∧
    ((NewConn rawConn mockLogger [textStandIn, binaryStandIn, failingParser]).parserHeader
        world0).1 = none ∧
    ((NewConn rawConn mockLogger [textStandIn, binaryStandIn, failingParser]).parserHeader
        world0).2.1.header = some { SrcAddr := some headerAddr, DstAddr := some rawAddr } :=
  ⟨(parserHeader_chain
      (NewConn rawConn mockLogger [textStandIn, binaryStandIn, failingParser])
      [{ header := none, err := some Error.ErrInvalidSignature, effect := fun b w => (b, w) },
       { header := some { SrcAddr := some headerAddr, DstAddr := some rawAddr }, err := none,
         effect := fun b w => (b, w) },
       { header := none, err := some (Error.other "Parse error"),
         effect := fun b w => (b, w) }]
      world0 rfl).1,
   (parserHeader_chain
      (NewConn rawConn mockLogger [textStandIn, binaryStandIn, failingParser])
      [{ header := none, err := some Error.ErrInvalidSignature, effect := fun b w => (b, w) },
       { header := some { SrcAddr := some headerAddr, DstAddr := some rawAddr }, err := none,
         effect := fun b w => (b, w) },
       { header := none, err := some (Error.other "Parse error"),
         effect := fun b w => (b, w) }]
      world0 rfl).2 (fun str _ w => { w with log := w.log ++ [str] }) rfl⟩

/-- C7: on a `Conn` made by `NewConn`, the first `Read` or `RemoteAddr` runs
the parser chain exactly once, and any later sequence of `Read` and
`RemoteAddr` calls records no chain run and no parser invocation and leaves
the resolved header as the first call left it. -/
theorem resolution_exactly_once {σ : Type} (raw : NetConn σ) (logf : LoggerFn σ)
    (ps : List (HeaderParser σ)) (w : σ) (first : Call) (rest : List Call) :
    (((NewConn raw logf ps).call w first).1.trace.count Event.resolve = 1) ∧
    (Conn.calls rest ((NewConn raw logf ps).call w first).1
        ((NewConn raw logf ps).call w first).2).1.trace =
      ((NewConn raw logf ps).call w first).1.trace ∧
    (Conn.calls rest ((NewConn raw logf ps).call w first).1
        ((NewConn raw logf ps).call w first).2).1.header =
      ((NewConn raw logf ps).call w first).1.header := by
  have h1 := call_eq_onceDo (NewConn raw logf ps) w first
  have hdone : ((NewConn raw logf ps).call w first).1.once = true :=
    h1.1.trans (onceDo_sets_once _ w)
  have hcnt := onceDo_count_fresh (NewConn raw logf ps) w rfl
  have hrest := calls_after_done rest _ ((NewConn raw logf ps).call w first).2 hdone
  refine ⟨?_, hrest.1, hrest.2⟩
  rw [h1.2.1, hcnt]
  simp [NewConn]

/-- C8: `Write`, `Close`, `SetDeadline`, `SetReadDeadline` and
`SetWriteDeadline` return what the raw connection returns, leave the world as
the raw call left it, and leave every field of the `Conn` (resolution flag,
header, read buffer, trace of parser invocations) unchanged. -/
theorem passthrough_calls {σ : Type} (c : Conn σ) (w : σ) (buf : List Byte) (t : Int) :
    ((c.Write buf w).1 = (c.conn.Write buf w).1 ∧ (c.Write buf w).2.1 = c ∧
      (c.Write buf w).2.2 = (c.conn.Write buf w).2) ∧
    ((c.Close w).1 = (c.conn.Close w).1 ∧ (c.Close w).2.1 = c ∧
      (c.Close w).2.2 = (c.conn.Close w).2) ∧
    ((c.SetDeadline t w).1 = (c.conn.SetDeadline t w).1 ∧ (c.SetDeadline t w).2.1 = c ∧
      (c.SetDeadline t w).2.2 = (c.conn.SetDeadline t w).2) ∧
    ((c.SetReadDeadline t w).1 = (c.conn.SetReadDeadline t w).1 ∧
      (c.SetReadDeadline t w).2.1 = c ∧
      (c.SetReadDeadline t w).2.2 = (c.conn.SetReadDeadline t w).2) ∧
    ((c.SetWriteDeadline t w).1 = (c.conn.SetWriteDeadline t w).1 ∧
      (c.SetWriteDeadline t w).2.1 = c ∧
      (c.SetWriteDeadline t w).2.2 = (c.conn.SetWriteDeadline t w).2) :=
  ⟨⟨rfl, rfl, rfl⟩, ⟨rfl, rfl, rfl⟩, ⟨rfl, rfl, rfl⟩, ⟨rfl, rfl, rfl⟩, ⟨rfl, rfl, rfl⟩⟩


/-- C1: a `Conn` whose only parser fails with the fatal error `Parse error`,
on a stream that holds three bytes. The first `Read` returns the three bytes
and a nil error, and the second `Read` returns what the raw connection
returns at its end: neither returns the parser error, and both read from the
raw connection. -/
theorem read_after_fatal_error :
    ((NewConn rawConn mockLogger [failingParser]).Read 1400 world0).1 =
      Except.ok ([1, 2, 3], none) ∧
    ((NewConn rawConn mockLogger [failingParser]).Read 1400 world0).2.1.header = none ∧
    ((NewConn rawConn mockLogger [failingParser]).Read 1400 world0).2.2.log =
      ["Parse header error: %s"] ∧
    ((NewConn rawConn mockLogger [failingParser]).Read 1400 world0).2.2.input = [] ∧
    (((NewConn rawConn mockLogger [failingParser]).Read 1400 world0).2.1.Read 1400
        ((NewConn rawConn mockLogger [failingParser]).Read 1400 world0).2.2).1 =
      Except.ok ([], some (Error.other "EOF")) :=
  ⟨rfl, rfl, rfl, rfl, rfl⟩

/-- C2, refuted as stated: a parser resolves a header whose source address
is nil; `RemoteAddr` returns that nil address and not the remote address of
the raw connection. -/
theorem remoteAddr_nil_source_counterexample :
    ((NewConn rawConn mockLogger [localParser]).RemoteAddr world0).2.1.header =
      some { SrcAddr := none, DstAddr := none } ∧
    rawConn.RemoteAddr ((NewConn rawConn mockLogger [localParser]).RemoteAddr world0).2.2 =
      some rawAddr ∧
    ((NewConn rawConn mockLogger [localParser]).RemoteAddr world0).1 = Except.ok none ∧
    ((NewConn rawConn mockLogger [localParser]).RemoteAddr world0).1 ≠
      Except.ok (rawConn.RemoteAddr
        ((NewConn rawConn mockLogger [localParser]).RemoteAddr world0).2.2) := by
  refine ⟨rfl, rfl, rfl, ?_⟩
  intro h
  have h2 : (Except.ok none : Except Panic (Option Addr)) = Except.ok (some rawAddr) := h
  cases h2

/-- C2, amended: on a `Conn` with a logger that is not nil, in any resolution
state, `RemoteAddr` returns the `SrcAddr` field of the stored header whenever
a header is stored after resolution, and the remote address of the raw
connection when none is stored; the stored header is the one the parser chain
leaves when this call resolves, and the one already there otherwise. -/
theorem remoteAddr_returns_stored_source {σ : Type} (c : Conn σ)
    (f : String → List Error → σ → σ) (w : σ) (hlog : c.logf = some f) :
    (c.RemoteAddr w).1 =
      Except.ok (match (c.RemoteAddr w).2.1.header with
        | some h => h.SrcAddr
        | none => c.conn.RemoteAddr (c.RemoteAddr w).2.2) ∧
    (c.once = true → (c.RemoteAddr w).2.1.header = c.header ∧ (c.RemoteAddr w).2.2 = w) ∧
    (c.once = false → (c.RemoteAddr w).2.1.header = (c.parserHeader w).2.1.header) := by
  by_cases h : c.once = true
  · refine ⟨?_, fun _ => ?_, fun h2 => ?_⟩
    · cases hh : c.header <;> simp [Conn.RemoteAddr, Conn.onceDo, h, hh]
    · cases hh : c.header <;> simp [Conn.RemoteAddr, Conn.onceDo, h, hh]
    · rw [h] at h2
      cases h2
  · have hp : (c.parserHeader w).1 = none :=
      parserLoop_no_panic f c.headerParsers 0 _ w hlog
    have hc : (c.parserHeader w).2.1.conn = c.conn := parserLoop_conn c.headerParsers 0 _ w
    rcases hr : c.parserHeader w with ⟨p, c1, w1⟩
    rw [hr] at hp hc
    simp only at hp hc
    subst hp
    refine ⟨?_, fun h2 => absurd h2 h, fun _ => ?_⟩
    · cases hh : c1.header <;> simp [Conn.RemoteAddr, Conn.onceDo, h, hr, hh, hc]
    · cases hh : c1.header <;> simp [Conn.RemoteAddr, Conn.onceDo, h, hr, hh]

/-- C2, amended, at concrete inputs: the header of the tests is resolved by
the second parser and its source address is returned. -/
theorem remoteAddr_returns_stored_source_witness :
    ((NewConn rawConn mockLogger [textStandIn, binaryStandIn]).RemoteAddr world0).1 =
      Except.ok (some headerAddr) :=
  (remoteAddr_returns_stored_source (NewConn rawConn mockLogger [textStandIn, binaryStandIn])
    (fun str _ w => { w with log := w.log ++ [str] }) world0 rfl).1

/-- C3: a `Conn` whose parser resolves a header with the destination address
1.2.3.4:12345 over a raw connection with the local address 10.0.0.1:12345.
`LocalAddr` returns the raw address and does not resolve, and it still
returns the raw address once the header is resolved and stored. -/
theorem localAddr_ignores_header :
    ((NewConn rawConn mockLogger [dstParser]).LocalAddr world0).1 = some rawAddr ∧
    ((NewConn rawConn mockLogger [dstParser]).LocalAddr world0).2.1.once = false ∧
    ((NewConn rawConn mockLogger [dstParser]).LocalAddr world0).2.1.trace = [] ∧
    ((NewConn rawConn mockLogger [dstParser]).RemoteAddr world0).2.1.header =
      some { SrcAddr := none, DstAddr := some headerAddr } ∧
    (((NewConn rawConn mockLogger [dstParser]).RemoteAddr world0).2.1.LocalAddr
        ((NewConn rawConn mockLogger [dstParser]).RemoteAddr world0).2.2).1 = some rawAddr ∧
    some rawAddr ≠ some headerAddr :=
  ⟨rfl, rfl, rfl, rfl, rfl, by decide⟩

/-- The `LocalAddr` method never looks at the header: it is the raw call. -/
theorem localAddr_is_raw {σ : Type} (c : Conn σ) (w : σ) :
    c.LocalAddr w = (c.conn.LocalAddr w, c, w) := rfl


/-- C4, refuted as stated: the source checker fails with an error; `Accept`
returns no connection and that error, and the accepted raw connection has
received no `Close` call. -/
theorem accept_check_error_counterexample :
    (mockListener.Accept world0).1.isOk = true ∧
    (((NewListener textStandIn binaryStandIn mockListener).WithSourceChecker
        failingCheck).Accept world0).1.2 = some (Error.other "Check error") ∧
    (((NewListener textStandIn binaryStandIn mockListener).WithSourceChecker
        failingCheck).Accept world0).1.1.isNone = true ∧
    (((NewListener textStandIn binaryStandIn mockListener).WithSourceChecker
        failingCheck).Accept world0).2.closeCalls = 0 ∧
    (rawConn.Close world0).2.closeCalls = 1 :=
  ⟨rfl, rfl, rfl, rfl, rfl⟩

/-- C4, amended: when the underlying `Accept` succeeds and the configured
source checker returns an error, `Accept` returns no connection and that same
error, and the world after it is the world the checker left with the line
`Source check error` reported to the logger, when there is one. -/
theorem accept_check_error {σ : Type} (l : Listener σ)
    (sc : Option Addr → σ → (Bool × Option Error) × σ) (raw : NetConn σ)
    (w w1 w2 : σ) (trusted : Bool) (err : Error)
    (hsc : l.SourceCheck = some sc)
    (hacc : l.Listener.Accept w = (Except.ok raw, w1))
    (hchk : sc (raw.RemoteAddr w1) w1 = ((trusted, some err), w2)) :
    l.Accept w = ((none, some err), l.log "Source check error: %s" [err] w2) := by
  simp [Listener.Accept, hacc, hsc, hchk]

/-- C4, amended, at a concrete input: the error is returned, the logger is
nil and silently skipped, and the raw connection is not closed. -/
theorem accept_check_error_witness :
    ((NewListener textStandIn binaryStandIn mockListener).WithSourceChecker
        failingCheck).Accept world0 = ((none, some (Error.other "Check error")), world0) :=
  accept_check_error
    ((NewListener textStandIn binaryStandIn mockListener).WithSourceChecker failingCheck)
    (fun _ w => ((false, some (Error.other "Check error")), w)) rawConn
    world0 world0 world0 false (Error.other "Check error") rfl rfl rfl

/-- C5: when the underlying `Accept` succeeds and the configured source
checker answers `(false, nil)`, `Accept` returns the raw connection itself
with a nil error and leaves the world as the checker left it, whatever the
parser list and the bytes of the stream; `RemoteAddr` and `Read` on the
returned connection are the calls of the raw connection. -/
theorem accept_untrusted_returns_raw {σ : Type} (l : Listener σ)
    (sc : Option Addr → σ → (Bool × Option Error) × σ) (raw : NetConn σ)
    (w w1 w2 : σ)
    (hsc : l.SourceCheck = some sc)
    (hacc : l.Listener.Accept w = (Except.ok raw, w1))
    (hchk : sc (raw.RemoteAddr w1) w1 = ((false, none), w2)) :
    l.Accept w = ((some (AcceptedConn.raw raw), none), w2) ∧
    (∀ w3 : σ, (AcceptedConn.raw raw).RemoteAddr w3 =
      (Except.ok (raw.RemoteAddr w3), AcceptedConn.raw raw, w3)) ∧
    (∀ (n : Nat) (w3 : σ), (AcceptedConn.raw raw).Read n w3 =
      (Except.ok (raw.Read n w3).1, AcceptedConn.raw raw, (raw.Read n w3).2)) := by
  refine ⟨?_, fun _ => rfl, fun _ _ => rfl⟩
  simp [Listener.Accept, hacc, hsc, hchk]

/-- C5, at a concrete input: the stream starts with a text header, the
default listener distrusts the peer, and the returned connection is the raw
one, with the stream untouched. -/
theorem accept_untrusted_returns_raw_witness :
    ((NewListener textStandIn binaryStandIn mockListener).WithSourceChecker
        distrustCheck).Accept proxyWorld =
      ((some (AcceptedConn.raw rawConn), none), proxyWorld) ∧
    (AcceptedConn.raw rawConn).RemoteAddr proxyWorld =
      (Except.ok (some rawAddr), AcceptedConn.raw rawConn, proxyWorld) :=
  ⟨(accept_untrusted_returns_raw
      ((NewListener textStandIn binaryStandIn mockListener).WithSourceChecker distrustCheck)
      (fun _ w => ((false, none), w)) rawConn proxyWorld proxyWorld proxyWorld
      rfl rfl rfl).1, rfl⟩

/-- C9, refuted as stated: with stand-ins for the two package parsers, the
entry at index 0 of the list of `NewListener` is not the binary parser. -/
theorem newListener_order_counterexample :
    (NewListener textStandIn binaryStandIn mockListener).HeaderParsers.get? 0 ≠
      some binaryStandIn := by
  intro h
  have h2 : textStandIn = binaryStandIn := Option.some.inj h
  have h3 := congrArg (fun p => (p (NewReaderSize bufferSize) none world0).err) h2
  simp [textStandIn, binaryStandIn, Script.toParser] at h3

/-- C9, amended: the listener of `NewListener` wraps the given raw listener
and has exactly two header parsers, `ParseTextHeader` at index 0 and
`ParseBinaryHeader` at index 1, a nil logger and a nil source checker. -/
theorem newListener_defaults {σ : Type} (ParseTextHeader ParseBinaryHeader : HeaderParser σ)
    (nl : NetListener σ) :
    (NewListener ParseTextHeader ParseBinaryHeader nl).HeaderParsers =
      [ParseTextHeader, ParseBinaryHeader] ∧
    (NewListener ParseTextHeader ParseBinaryHeader nl).HeaderParsers.length = 2 ∧
    (NewListener ParseTextHeader ParseBinaryHeader nl).HeaderParsers.get? 0 =
      some ParseTextHeader ∧
    (NewListener ParseTextHeader ParseBinaryHeader nl).HeaderParsers.get? 1 =
      some ParseBinaryHeader ∧
    (NewListener ParseTextHeader ParseBinaryHeader nl).LoggerFn = none ∧
    (NewListener ParseTextHeader ParseBinaryHeader nl).SourceCheck = none ∧
    (NewListener ParseTextHeader ParseBinaryHeader nl).Listener = nl :=
  ⟨rfl, rfl, rfl, rfl, rfl, rfl, rfl⟩

/-- C10: on a `Conn` made by `NewConn` with a nil logger, whatever the raw
connection, the parsers and the stream, the first `Read` panics with a nil
func call, and so does the first `RemoteAddr`. -/
theorem newConn_nil_logger_panics {σ : Type} (raw : NetConn σ)
    (ps : List (HeaderParser σ)) (n : Nat) (w : σ) :
    ((NewConn raw none ps).Read n w).1 = Except.error Panic.nilFuncCall ∧
    ((NewConn raw none ps).RemoteAddr w).1 = Except.error Panic.nilFuncCall := by
  have hp : ((NewConn raw none ps).parserHeader w).1 = some Panic.nilFuncCall :=
    parserLoop_nil_logger ps 0 _ w rfl
  rcases hr : (NewConn raw none ps).parserHeader w with ⟨p, c1, w1⟩
  rw [hr] at hp
  simp only at hp
  subst hp
  have ho : (NewConn raw none ps).onceDo w =
      (some Panic.nilFuncCall, { c1 with once := true }, w1) := by
    unfold Conn.onceDo
    rw [hr]
    rfl
  exact ⟨by simp [Conn.Read, ho], by simp [Conn.RemoteAddr, ho]⟩

/-- The sibling path of C10: a `Conn` that `Accept` makes on a listener with a
nil `LoggerFn` carries `listener.log`, which is the logger that does nothing,
so its resolution cannot panic on a logger call. -/
theorem accept_nil_logger_is_silent {σ : Type} (l : Listener σ) (raw : NetConn σ)
    (h : l.LoggerFn = none) :
    NewConn raw (some l.log) l.HeaderParsers = NewConn raw silentLogger l.HeaderParsers ∧
    ∀ (i : Nat) (w : σ),
      (Conn.parserLoop l.HeaderParsers i (NewConn raw (some l.log) l.HeaderParsers) w).1 =
        none := by
  have hl : l.log = fun _ _ w => w := by
    funext str args w
    simp [Listener.log, h]
  refine ⟨by simp [hl, silentLogger], fun i w => ?_⟩
  exact parserLoop_no_panic l.log l.HeaderParsers i _ w rfl


end ProxyProtocol
